import Mathlib

/-!
# Verification of the Product Selector cascading filter (src/Document_app.py)

Shallow embedding of the data-handling core of `Document_app.py`:

* a pandas scalar cell is either missing (`NaN`) or a string value
  (numeric cells behave, through `str()` conversion, like strings without
  surrounding whitespace, so `Cell.str` covers them);
* a dataframe row is a function from column name to cell (`row.get`);
* Python string primitives (`strip`, `startswith`, the code-point
  lexicographic order used by `sorted`) are modelled over the character
  list of the string;
* the cleaning steps (`dropna(how="all")`, the required-column validation,
  `dropna(subset=required_hierarchy)`, the per-column strip);
* the cascading filter loop (options computation, multiselect narrowing);
* the field renderer (definition / default values / link / image).
-/

namespace DocumentApp

/-- Python `str.strip()` on the character list: drop whitespace from the
front, then from the back. -/
def stripChars (l : List Char) : List Char :=
  ((l.dropWhile Char.isWhitespace).reverse.dropWhile Char.isWhitespace).reverse

/-- Python `str.strip()`. -/
def pyStrip (s : String) : String :=
  String.mk (stripChars s.data)

/-- Python `str.startswith(p)`. -/
def pyStartsWith (s p : String) : Bool :=
  p.data.isPrefixOf s.data

/-- Code-point lexicographic `<=` on character lists, the order Python's
`sorted` uses on strings. -/
def charListLe : List Char → List Char → Bool
  | [], _ => true
  | _ :: _, [] => false
  | a :: as, b :: bs =>
    if a < b then true
    else if b < a then false
    else charListLe as bs

/-- Python string `<=`. -/
def pyLe (a b : String) : Bool :=
  charListLe a.data b.data

/-- A pandas scalar cell: either missing (`NaN`/`None`, anything `pd.isna`
catches) or a string value. -/
inductive Cell where
  | null : Cell
  | str : String → Cell
deriving DecidableEq

/-- Python `str(x)` as applied by `.astype(str)`: pandas `NaN` prints as
`"nan"`. -/
def Cell.toStr : Cell → String
  | Cell.null => "nan"
  | Cell.str s => s

/-- `pd.notna`. -/
def Cell.notna : Cell → Bool
  | Cell.null => false
  | Cell.str _ => true

/-- Line 163: `x.strip() if isinstance(x, str) else x`. -/
def Cell.stripIfStr : Cell → Cell
  | Cell.null => Cell.null
  | Cell.str s => Cell.str (pyStrip s)

/-- A dataframe row: column name to cell.  A column absent from the frame
reads as `null` (`row.get` returns `None`, and `pd.notna None = False`). -/
def Row := String → Cell

/-- A loaded dataframe: its column list and its rows. -/
structure Table where
  cols : List String
  rows : List Row

/-- Lines 149-152: the seven hierarchy columns that must be present. -/
def requiredHierarchy : List String :=
  ["Key Word", "Placement", "Department", "Super category", "Category",
   "Subcategory", "Segment"]

/-- Line 153: `missing = [c for c in required_hierarchy if c not in df.columns]`. -/
def missingColumns (cols : List String) : List String :=
  requiredHierarchy.filter (fun c => decide (c ∉ cols))

/-- Line 83: `df.dropna(how="all")` — keep rows with at least one non-null
cell among the frame's columns. -/
def dropAllEmpty (cols : List String) (rows : List Row) : List Row :=
  rows.filter (fun r => cols.any (fun c => (r c).notna))

/-- Line 159: `df.dropna(subset=required_hierarchy, how="any")` — keep rows
whose seven hierarchy cells are all non-null. -/
def dropMissingHierarchy (rows : List Row) : List Row :=
  rows.filter (fun r => requiredHierarchy.all (fun c => (r c).notna))

/-- Lines 162-163: strip whitespace inside the hierarchy columns. -/
def stripHierarchy (r : Row) : Row :=
  fun c => if c ∈ requiredHierarchy then (r c).stripIfStr else r c

/-- The cleaned table handed to the cascade (lines 83, 159, 162-163 in
program order; the header validation sits between the first and second
step but does not change the surviving rows). -/
def cleanRows (cols : List String) (rows : List Row) : List Row :=
  (dropMissingHierarchy (dropAllEmpty cols rows)).map stripHierarchy

/-- Lines 196-198:
`sorted(filtered_df[col].dropna().astype(str).str.strip().unique().tolist())`.
`unique` keeps one copy of each stripped value and `sorted` orders them;
`List.dedup` followed by `List.insertionSort` yields the same sorted
duplicate-free list. -/
def optionsAt (rows : List Row) (col : String) : List String :=
  List.insertionSort (fun a b => pyLe a b = true)
    ((rows.filterMap (fun r =>
      match r col with
      | Cell.null => none
      | Cell.str s => some (pyStrip s))).dedup)

/-- Line 222: `filtered_df[col].astype(str).str.strip().isin(selected)`.
Note there is no `dropna` here: a null cell stringifies to `"nan"`. -/
def matchesSelection (col : String) (selected : List String) (r : Row) : Bool :=
  selected.contains (pyStrip (r col).toStr)

/-- What one cascade step produces: whether the disabled "No options" widget
was shown, and the row subset carried to the next level. -/
structure StepOutput where
  noOptions : Bool
  rows : List Row

/-- Lines 195-223, one loop iteration: compute the options from the current
subset; when they are empty show the disabled "No options" widget and force
the selection empty; apply the `isin` filter only when the (effective)
selection is non-empty. -/
def cascadeStepFull (rows : List Row) (col : String) (selected : List String) :
    StepOutput :=
  let options := optionsAt rows col
  if options = [] then
    ⟨true, rows⟩
  else if selected = [] then
    ⟨false, rows⟩
  else
    ⟨false, rows.filter (matchesSelection col selected)⟩

/-- The row subset a cascade step passes on. -/
def cascadeStep (rows : List Row) (col : String) (selected : List String) :
    List Row :=
  (cascadeStepFull rows col selected).rows

/-- Lines 187-223: the whole cascade, folding the per-level steps over the
cleaned table (`filtered_df = df.copy()` then seven narrowings). -/
def runCascade (rows : List Row) (steps : List (String × List String)) :
    List Row :=
  steps.foldl (fun acc step => cascadeStep acc step.1 step.2) rows

/-- Lines 83-223 as one pipeline: drop fully-empty rows, validate the
hierarchy columns (halting with the missing list when any is absent), clean,
then run the cascade with the per-level selections in hierarchy order. -/
def loadAndFilter (t : Table) (sels : List (List String)) :
    Except (List String) (List Row) :=
  let rows1 := dropAllEmpty t.cols t.rows
  let missing := missingColumns t.cols
  if missing = [] then
    Except.ok (runCascade ((dropMissingHierarchy rows1).map stripHierarchy)
      (requiredHierarchy.zip sels))
  else
    Except.error missing

/-- Lines 242-246: the definition field, placeholder when null or blank. -/
def renderDefinition (v : Cell) : String :=
  match v with
  | Cell.null => "No definition provided."
  | Cell.str s => if pyStrip s = "" then "No definition provided." else s

/-- Lines 253-254: `x if pd.notna(x) and str(x).strip() else "Not specified"`. -/
def defaultText (v : Cell) : String :=
  match v with
  | Cell.null => "Not specified"
  | Cell.str s => if pyStrip s = "" then "Not specified" else s

/-- Lines 280-291: the link field — the stripped link when present,
placeholder when null or blank. -/
def renderLink (v : Cell) : String :=
  match v with
  | Cell.null => "No product link provided."
  | Cell.str s => if pyStrip s = "" then "No product link provided." else pyStrip s

/-- What the image block displays. -/
inductive ImageRender where
  | url : String → ImageRender
  | localFile : String → ImageRender
  | placeholder : ImageRender
deriving DecidableEq

/-- Python `pathlib.Path(s)` normalisation as far as it matters here:
`Path("")` is `Path(".")` (`str(Path("")) == "."`). -/
def pyPath (s : String) : String := if s = "" then "." else s

/-- Lines 260-277: null cell shows the placeholder; otherwise strip, then
branch on an `http://`/`https://` scheme; otherwise treat as a local path
and show the placeholder when it does not exist.  The filesystem enters as
the `pathExists` oracle (`Path(...).exists()`). -/
def renderImage (pathExists : String → Bool) (v : Cell) : ImageRender :=
  match v with
  | Cell.null => ImageRender.placeholder
  | Cell.str s0 =>
    let s := pyStrip s0
    if pyStartsWith s "http://" || pyStartsWith s "https://" then
      ImageRender.url s
    else
      let p := pyPath s
      if pathExists p then ImageRender.localFile p else ImageRender.placeholder

/-- Sample rows used to instantiate the theorems below on concrete data. -/
def sampleRowA : Row :=
  fun c => if c = "Department" then Cell.str "d1" else Cell.str "x"

/-- A second sample row differing from `sampleRowA` in `Department`. -/
def sampleRowB : Row :=
  fun c => if c = "Department" then Cell.str "d2" else Cell.str "x"

/-- A sample row whose `Image` column is null. -/
def sampleRowNoImage : Row :=
  fun c => if c = "Image" then Cell.null else Cell.str "x"

/-- A sample table lacking the `Segment` hierarchy column. -/
def sampleTableMissingSegment : Table :=
  ⟨["Key Word", "Placement", "Department", "Super category", "Category",
    "Subcategory"], []⟩

/-! ## Helper lemmas -/

theorem charListLe_total : ∀ as bs : List Char,
    charListLe as bs = true ∨ charListLe bs as = true
  | [], _ => Or.inl rfl
  | _ :: _, [] => Or.inr rfl
  | a :: as, b :: bs => by
    rcases lt_trichotomy a b with h | h | h
    · left; simp [charListLe, h]
    · subst h
      rcases charListLe_total as bs with ih | ih
      · left; simp [charListLe, lt_irrefl, ih]
      · right; simp [charListLe, lt_irrefl, ih]
    · right; simp [charListLe, h]

theorem charListLe_trans : ∀ as bs cs : List Char,
    charListLe as bs = true → charListLe bs cs = true →
    charListLe as cs = true := by
  intro as
  induction as with
  | nil => intro bs cs _ _; rfl
  | cons a as ih =>
    intro bs cs h1 h2
    cases bs with
    | nil => simp [charListLe] at h1
    | cons b bs =>
      cases cs with
      | nil => simp [charListLe] at h2
      | cons c cs =>
        rcases lt_trichotomy a b with hab | hab | hab
        · rcases lt_trichotomy b c with hbc | hbc | hbc
          · simp [charListLe, lt_trans hab hbc]
          · subst hbc; simp [charListLe, hab]
          · simp [charListLe, asymm hbc, hbc] at h2
        · subst hab
          rcases lt_trichotomy a c with hac | hac | hac
          · simp [charListLe, hac]
          · subst hac
            simp only [charListLe, lt_irrefl, if_false] at h1 h2 ⊢
            exact ih bs cs h1 h2
          · simp [charListLe, asymm hac, hac] at h2
        · simp [charListLe, asymm hab, hab] at h1

instance : IsTotal String (fun a b => pyLe a b = true) :=
  ⟨fun a b => charListLe_total a.data b.data⟩

instance : IsTrans String (fun a b => pyLe a b = true) :=
  ⟨fun a b c => charListLe_trans a.data b.data c.data⟩

theorem mem_optionsAt {rows : List Row} {col : String} {a : String} :
    a ∈ optionsAt rows col ↔
      ∃ r ∈ rows, ∃ s, r col = Cell.str s ∧ pyStrip s = a := by
  unfold optionsAt
  rw [List.mem_insertionSort, List.mem_dedup, List.mem_filterMap]
  constructor
  · rintro ⟨r, hr, he⟩
    cases hc : r col with
    | null => rw [hc] at he; simp at he
    | str s =>
      rw [hc] at he
      simp only [Option.some.injEq] at he
      exact ⟨r, hr, s, hc, he⟩
  · rintro ⟨r, hr, s, hc, he⟩
    exact ⟨r, hr, by rw [hc]; simpa using he⟩

theorem cascadeStep_eq (rows : List Row) (col : String) (sel : List String) :
    cascadeStep rows col sel =
      if optionsAt rows col = [] then rows
      else if sel = [] then rows
      else rows.filter (matchesSelection col sel) := by
  unfold cascadeStep cascadeStepFull
  by_cases h1 : optionsAt rows col = [] <;> by_cases h2 : sel = [] <;>
    simp [h1, h2]

theorem cascadeStep_nil (rows : List Row) (col : String) :
    cascadeStep rows col [] = rows := by
  rw [cascadeStep_eq]
  by_cases h : optionsAt rows col = [] <;> simp [h]

theorem runCascade_all_nil : ∀ (cs : List String) (rows : List Row),
    runCascade rows (cs.map (fun c => (c, ([] : List String)))) = rows := by
  intro cs
  induction cs with
  | nil => intro rows; rfl
  | cons c cs ih =>
    intro rows
    show runCascade (cascadeStep rows c []) (cs.map _) = rows
    rw [cascadeStep_nil]
    exact ih rows

theorem mem_of_mem_cascadeStep {r : Row} {rows : List Row} {col : String}
    {sel : List String} (h : r ∈ cascadeStep rows col sel) : r ∈ rows := by
  rw [cascadeStep_eq] at h
  by_cases h1 : optionsAt rows col = []
  · simpa [h1] using h
  · by_cases h2 : sel = []
    · simpa [h1, h2] using h
    · rw [if_neg h1, if_neg h2] at h
      exact (List.mem_filter.mp h).1

theorem mem_of_mem_runCascade {r : Row} :
    ∀ {steps : List (String × List String)} {rows : List Row},
    r ∈ runCascade rows steps → r ∈ rows := by
  intro steps
  induction steps with
  | nil => intro rows h; exact h
  | cons s ss ih =>
    intro rows h
    exact mem_of_mem_cascadeStep (ih h)

theorem notna_stripHierarchy (r : Row) (c : String) :
    (stripHierarchy r c).notna = (r c).notna := by
  unfold stripHierarchy
  by_cases h : c ∈ requiredHierarchy
  · rw [if_pos h]; cases r c <;> rfl
  · rw [if_neg h]

/-! ## Claims -/

/-- C1: at a cascade step whose option set is non-empty, a non-empty
selection narrows the current subset to exactly the rows whose stripped
stringified value in the mapped column is among the chosen values (with a
single chosen value: equals it); rows whose normalized value is not chosen
are removed and no other rows are removed. -/
theorem c1_selection_narrows_exactly (rows : List Row) (col : String)
    (selected : List String) (hopt : optionsAt rows col ≠ [])
    (hsel : selected ≠ []) (r : Row) :
    r ∈ cascadeStep rows col selected ↔
      r ∈ rows ∧ pyStrip (r col).toStr ∈ selected := by
  rw [cascadeStep_eq, if_neg hopt, if_neg hsel, List.mem_filter,
    matchesSelection]
  simp [List.contains, List.elem_iff]

/-- C1 witness: on two concrete rows, selecting `"d1"` for `Department`
keeps `sampleRowA` exactly when its stripped value is the chosen one. -/
theorem c1_witness :
    sampleRowA ∈ cascadeStep [sampleRowA, sampleRowB] "Department" ["d1"] ↔
      sampleRowA ∈ [sampleRowA, sampleRowB] ∧
        pyStrip (sampleRowA "Department").toStr ∈ ["d1"] :=
  c1_selection_narrows_exactly [sampleRowA, sampleRowB] "Department" ["d1"]
    (by decide) (by decide) sampleRowA

/-- C2: running the cascade with the empty ("ALL") selection at every one
of the cascaded hierarchy roles returns its input table unchanged — same
rows, same order, hence same row count and content. -/
theorem c2_all_selections_identity (rows : List Row) :
    runCascade rows (requiredHierarchy.map (fun c => (c, ([] : List String))))
      = rows :=
  runCascade_all_nil requiredHierarchy rows

/-- C3: the option set computed at a step is sorted (Python string order),
duplicate-free, and holds exactly the stripped values of the non-null cells
of the mapped column within the current subset. -/
theorem c3_options_sorted_distinct (rows : List Row) (col : String)
    (a : String) :
    (optionsAt rows col).Sorted (fun a b => pyLe a b = true) ∧
    (optionsAt rows col).Nodup ∧
    (a ∈ optionsAt rows col ↔
      ∃ r ∈ rows, ∃ s, r col = Cell.str s ∧ pyStrip s = a) := by
  refine ⟨List.sorted_insertionSort _ _, ?_, mem_optionsAt⟩
  exact ((List.perm_insertionSort _ _).nodup_iff).mpr (List.nodup_dedup _)

/-- C4: when the loaded table lacks a required hierarchy column, the
pipeline halts with an error before any filtering, and the reported list
holds exactly the required roles missing from the columns, no more and no
fewer. -/
theorem c4_missing_columns_halt (t : Table) (sels : List (List String))
    (h : missingColumns t.cols ≠ []) :
    loadAndFilter t sels = Except.error (missingColumns t.cols) ∧
    (∀ c, c ∈ missingColumns t.cols ↔ c ∈ requiredHierarchy ∧ c ∉ t.cols) := by
  constructor
  · simp [loadAndFilter, h]
  · intro c
    simp [missingColumns, List.mem_filter]

/-- C4 witness: a table without the `Segment` column halts with exactly
`["Segment"]`. -/
theorem c4_witness :
    loadAndFilter sampleTableMissingSegment [] = Except.error ["Segment"] ∧
    ("Segment" ∈ missingColumns sampleTableMissingSegment.cols ↔
      "Segment" ∈ requiredHierarchy ∧
        "Segment" ∉ sampleTableMissingSegment.cols) := by
  have h := c4_missing_columns_halt sampleTableMissingSegment [] (by decide)
  have e : missingColumns sampleTableMissingSegment.cols = ["Segment"] := by
    decide
  exact ⟨by rw [h.1, e], h.2 "Segment"⟩

/-- C5: when the option set at a step is empty, the step reports the
"no options" indication, applies no narrowing (the subset carried to the
next role equals the subset before the step), and the cascade continues. -/
theorem c5_empty_options_no_narrowing (rows : List Row) (col : String)
    (selected : List String) (h : optionsAt rows col = []) :
    (cascadeStepFull rows col selected).noOptions = true ∧
    (cascadeStepFull rows col selected).rows = rows := by
  unfold cascadeStepFull
  rw [if_pos h]
  exact ⟨rfl, rfl⟩

/-- C5 witness: a row whose `Image` cell is null yields an empty option set
for `Image`, and the step passes the subset through unchanged. -/
theorem c5_witness :
    (cascadeStepFull [sampleRowNoImage] "Image" ["x"]).noOptions = true ∧
    (cascadeStepFull [sampleRowNoImage] "Image" ["x"]).rows =
      [sampleRowNoImage] :=
  c5_empty_options_no_narrowing [sampleRowNoImage] "Image" ["x"] (by decide)

/-- C6: narrowing is monotonic — the subset after any cascade step (in
particular a step with a specific value selected) has at most as many rows
as the subset before it. -/
theorem c6_narrowing_monotonic (rows : List Row) (col : String)
    (selected : List String) :
    (cascadeStep rows col selected).length ≤ rows.length := by
  rw [cascadeStep_eq]
  by_cases h1 : optionsAt rows col = []
  · simp [h1]
  · by_cases h2 : selected = []
    · simp [h1, h2]
    · rw [if_neg h1, if_neg h2]
      exact List.length_filter_le _ _

/-- C7: the cascade is deterministic over its inputs — two runs on the same
table with the same sequence of selections produce identical result lists
(same rows in the same order). -/
theorem c7_cascade_deterministic (rows1 rows2 : List Row)
    (steps1 steps2 : List (String × List String))
    (h1 : rows1 = rows2) (h2 : steps1 = steps2) :
    runCascade rows1 steps1 = runCascade rows2 steps2 := by
  rw [h1, h2]

/-- C7 witness: two runs on the same concrete table and selections agree. -/
theorem c7_witness :
    runCascade [sampleRowA, sampleRowB] [("Department", ["d1"])] =
      runCascade [sampleRowA, sampleRowB] [("Department", ["d1"])] :=
  c7_cascade_deterministic [sampleRowA, sampleRowB] [sampleRowA, sampleRowB]
    [("Department", ["d1"])] [("Department", ["d1"])] rfl rfl

/-- C8: an image value that (after stripping) carries no `http://` or
`https://` scheme and does not name an existing path renders as the
placeholder ("no image") state rather than failing. -/
theorem c8_bad_image_placeholder (pathExists : String → Bool) (s : String)
    (h1 : pyStartsWith (pyStrip s) "http://" = false)
    (h2 : pyStartsWith (pyStrip s) "https://" = false)
    (h3 : pathExists (pyPath (pyStrip s)) = false) :
    renderImage pathExists (Cell.str s) = ImageRender.placeholder := by
  simp only [renderImage, h1, h2, h3, Bool.or_self, if_neg, Bool.false_eq_true,
    if_false]

/-- C8 witness: the value `"not-a-url-and-not-a-path"`, on a filesystem
where no path exists, renders as the placeholder. -/
theorem c8_witness :
    renderImage (fun _ => false) (Cell.str "not-a-url-and-not-a-path") =
      ImageRender.placeholder :=
  c8_bad_image_placeholder (fun _ => false) "not-a-url-and-not-a-path"
    (by decide) (by decide) rfl

/-- C9 counterexample: a whitespace-only `Image` value is NOT substituted by
the placeholder.  The code strips it to `""`, treats it as a local path, and
`Path("")` is `Path(".")` — the current directory, which exists (the oracle
here makes exactly `"."` exist, as it always does in a running process) — so
the block displays `"."` as a local image instead of the placeholder. -/
theorem c9_counterexample :
    renderImage (fun p => p == ".") (Cell.str " ") = ImageRender.localFile "." ∧
    renderImage (fun p => p == ".") (Cell.str " ") ≠ ImageRender.placeholder :=
  ⟨by decide, by decide⟩

/-- C9 (amended): the Definition, default-value and Link fields substitute
their placeholders for null, empty and whitespace-only values uniformly
(pandas nulls — the "nan"-like values — are the null case); the Image field
substitutes its placeholder for null values, while an empty or
whitespace-only Image value is instead treated as the local path `"."` and
yields the placeholder only when that path does not exist. -/
theorem c9_absent_field_placeholders (pathExists : String → Bool) (v : Cell)
    (h : v = Cell.null ∨ ∃ s, v = Cell.str s ∧ pyStrip s = "") :
    renderDefinition v = "No definition provided." ∧
    defaultText v = "Not specified" ∧
    renderLink v = "No product link provided." ∧
    renderImage pathExists Cell.null = ImageRender.placeholder ∧
    (∀ s, v = Cell.str s → pathExists "." = false →
      renderImage pathExists v = ImageRender.placeholder) := by
  have hhttp : pyStartsWith "" "http://" = false := by decide
  have hhttps : pyStartsWith "" "https://" = false := by decide
  rcases h with h | ⟨s, rfl, hs⟩
  · subst h
    exact ⟨rfl, rfl, rfl, rfl, fun s hsv => by cases hsv⟩
  · refine ⟨?_, ?_, ?_, rfl, ?_⟩
    · simp [renderDefinition, hs]
    · simp [defaultText, hs]
    · simp [renderLink, hs]
    · intro s' hs' hp
      cases hs'
      simp [renderImage, hs, hhttp, hhttps, pyPath, hp]

/-- C9 witness: a whitespace-only value yields every text placeholder, and
the image placeholder on a filesystem where `"."` does not exist. -/
theorem c9_witness :
    renderDefinition (Cell.str "  ") = "No definition provided." ∧
    defaultText (Cell.str "  ") = "Not specified" ∧
    renderLink (Cell.str "  ") = "No product link provided." ∧
    renderImage (fun _ => false) (Cell.str "  ") = ImageRender.placeholder := by
  have h := c9_absent_field_placeholders (fun _ => false) (Cell.str "  ")
    (Or.inr ⟨"  ", rfl, by decide⟩)
  exact ⟨h.1, h.2.1, h.2.2.1, h.2.2.2.2 "  " rfl rfl⟩

/-- C10: the pre-cleaning drops exactly the rows missing a value in one of
the seven hierarchy columns; every subset reached by any sequence of
cascade steps from the cleaned table holds only rows with non-null values
in all seven hierarchy columns; and the cascade with every selection empty
("ALL") returns the cleaned table, not the table as loaded. -/
theorem c10_cleaning_invariant (cols : List String) (rows : List Row)
    (steps : List (String × List String)) :
    (∀ r, r ∈ dropMissingHierarchy (dropAllEmpty cols rows) ↔
      r ∈ dropAllEmpty cols rows ∧
        ∀ c ∈ requiredHierarchy, (r c).notna = true) ∧
    (∀ r ∈ runCascade (cleanRows cols rows) steps,
      ∀ c ∈ requiredHierarchy, (r c).notna = true) ∧
    runCascade (cleanRows cols rows)
        (requiredHierarchy.map (fun c => (c, ([] : List String)))) =
      cleanRows cols rows := by
  refine ⟨?_, ?_, runCascade_all_nil _ _⟩
  · intro r
    rw [dropMissingHierarchy, List.mem_filter, List.all_eq_true]
  · intro r hr c hc
    have hr' : r ∈ cleanRows cols rows := mem_of_mem_runCascade hr
    obtain ⟨r0, hr0, rfl⟩ := List.mem_map.mp hr'
    have h0 := (List.mem_filter.mp hr0).2
    rw [List.all_eq_true] at h0
    rw [notna_stripHierarchy]
    exact h0 c hc

end DocumentApp
